import Mathlib

/-!
# FrameDrawer (src/ui/FrameDrawer.cc)

A shallow embedding of `SD_SLAM::FrameDrawer`: the constructor, `Update`,
`DrawFrame` and `DrawTextInfo`.

Conventions of the embedding.

* A `std::vector` is a `List`; `v[i]` is `v[i]?`, and an access outside the
  vector (undefined behaviour in C++) makes the enclosing operation return
  `none`.
* `int` values are `Int`.  The conversions `int n = v.size()` and the counter
  `mnTracked++` are taken without wrap-around: a vector of `2^31` key points
  is outside what a frame can hold.
* The coordinates of a key point are `float`s that the code only copies; their
  type is the parameter `F`.
* The image is drawn by OpenCV.  What `DrawFrame` does to it is recorded as the
  ordered list of OpenCV calls it makes (`CvCall`).
* The mutex is not modelled: `Update` and the locked block of `DrawFrame` are
  atomic steps on the drawer.
-/

set_option linter.dupNamespace false

namespace SD_SLAM

/-- Modelled from the spec: the enumeration `Tracking::eTrackingState`, declared
in `Tracking.h`, which is not part of the sources at hand.  `mState`, `state`
and `nState` are `int`s in the code, but they only ever hold the constructor's
`SYSTEM_NOT_READY` or a `static_cast<int>` of a value of this enumeration. -/
inductive eTrackingState where
  | SYSTEM_NOT_READY
  | NO_IMAGES_YET
  | NOT_INITIALIZED
  | OK
  | LOST
  deriving DecidableEq, Repr

open eTrackingState

/-- The type `cv::Point2f`. -/
structure Point2f (F : Type) where
  x : F
  y : F
  deriving DecidableEq, Repr

/-- The type `cv::KeyPoint`; `pt` is the only member the drawer reads. -/
structure KeyPoint (F : Type) where
  pt : Point2f F
  deriving DecidableEq, Repr

/-- The type `cv::Mat`: dimensions, channel count and the pixel bytes. -/
structure Mat where
  rows : Nat
  cols : Nat
  channels : Nat
  data : List Nat
  deriving DecidableEq, Repr

/-- The image `cv::Mat(rows, cols, CV_8UC3, cv::Scalar(0,0,0))`. -/
def Mat.black (rows cols : Nat) : Mat :=
  { rows := rows, cols := cols, channels := 3, data := List.replicate (rows * cols * 3) 0 }

/-- The members of `Frame` that `Update` reads.  A `MapPoint*` is `none` when it
is the null pointer and `some a` when it points at address `a`. -/
structure Frame (F : Type) where
  mvKeys : List (KeyPoint F)
  mvpMapPoints : List (Option Nat)
  mvbOutlier : List Bool
  deriving DecidableEq, Repr

/-- The members of `Tracking` that `Update` reads. -/
structure Tracking (F : Type) where
  mImGray : Mat
  mCurrentFrame : Frame F
  mInitialFrame : Frame F
  mvIniMatches : List Int
  mLastProcessedState : eTrackingState
  deriving DecidableEq, Repr

/-- Modelled from the spec: the map-statistics collaborator `Map` (declared in
`Map.h`, not part of the sources at hand), as the two counts its accessors
`KeyFramesInMap()` and `MapPointsInMap()` yield, as `int`s, at the time of a
draw. -/
structure Map where
  KeyFramesInMap : Int
  MapPointsInMap : Int
  deriving DecidableEq, Repr

/-- The data members of `FrameDrawer` (`mpMap` is passed to `DrawFrame`
instead, as the map at the time of the call). -/
structure FrameDrawer (F : Type) where
  mIm : Mat
  N : Int
  mvCurrentKeys : List (KeyPoint F)
  mvbMap : List Bool
  mnTracked : Int
  mvIniKeys : List (KeyPoint F)
  mvIniMatches : List Int
  mState : eTrackingState
  deriving DecidableEq, Repr

/-- The constructor `FrameDrawer::FrameDrawer`.  `Height` and `Width` are
`Config::Height()` and `Config::Width()`; `N` and `mnTracked` are not
initialised by the constructor, their indeterminate values are `N0` and
`mnTracked0`. -/
def FrameDrawer.FrameDrawer {F : Type} (Height Width : Nat) (N0 mnTracked0 : Int) :
    FrameDrawer F :=
  { mIm := Mat.black Height Width
    N := N0
    mvCurrentKeys := []
    mvbMap := []
    mnTracked := mnTracked0
    mvIniKeys := []
    mvIniMatches := []
    mState := SYSTEM_NOT_READY }

/-- One OpenCV call on the image being drawn.
* `cvtColor`: `cvtColor(im,im,CV_GRAY2BGR)`;
* `line pt1 pt2`: `cv::line(im, pt1, pt2, cv::Scalar(0,255,0), 2)`;
* `circle c`: `cv::circle(im, c, 3, cv::Scalar(0,255,0), 2)`;
* `putText s`: the status band of `DrawTextInfo`, blanked and then written with
  `cv::putText(imText, s, ...)`. -/
inductive CvCall (F : Type) where
  | cvtColor
  | line (pt1 pt2 : Point2f F)
  | circle (center : Point2f F)
  | putText (text : String)
  deriving DecidableEq, Repr

/-- The line segments among a list of calls, in order. -/
def lines {F : Type} (calls : List (CvCall F)) : List (Point2f F × Point2f F) :=
  calls.filterMap fun c => match c with
    | .line p q => some (p, q)
    | _ => none

/-- The centres of the markers among a list of calls, in order. -/
def markers {F : Type} (calls : List (CvCall F)) : List (Point2f F) :=
  calls.filterMap fun c => match c with
    | .circle p => some p
    | _ => none

/-- The body of the loop of `Update` in state `OK`, at index `i`. -/
def Update.body (mvpMapPoints : List (Option Nat)) (mvbOutlier : List Bool)
    (mvbMap : List Bool) (i : Nat) : Option (List Bool) :=
  match mvpMapPoints[i]? with
  | none => none
  | some pMP =>
    if pMP.isSome then
      match mvbOutlier[i]? with
      | none => none
      | some o => if !o then some (mvbMap.set i true) else some mvbMap
    else some mvbMap

/-- The method `FrameDrawer::Update`. -/
def Update {F : Type} (self : FrameDrawer F) (pTracker : Tracking F) :
    Option (FrameDrawer F) :=
  let self := { self with mIm := pTracker.mImGray }
  let self := { self with mvCurrentKeys := pTracker.mCurrentFrame.mvKeys }
  let self := { self with N := (self.mvCurrentKeys.length : Int) }
  let self := { self with mvbMap := List.replicate self.N.toNat false }
  if pTracker.mLastProcessedState = NOT_INITIALIZED then
    let self := { self with mvIniKeys := pTracker.mInitialFrame.mvKeys }
    let self := { self with mvIniMatches := pTracker.mvIniMatches }
    some { self with mState := pTracker.mLastProcessedState }
  else if pTracker.mLastProcessedState = OK then
    ((List.range self.N.toNat).foldlM
        (Update.body pTracker.mCurrentFrame.mvpMapPoints pTracker.mCurrentFrame.mvbOutlier)
        self.mvbMap).map
      fun vb => { self with mvbMap := vb, mState := pTracker.mLastProcessedState }
  else
    some { self with mState := pTracker.mLastProcessedState }

/-- The local variables of `DrawFrame` after its locked block. -/
structure Locals (F : Type) where
  im : Mat
  vIniKeys : List (KeyPoint F)
  vMatches : List Int
  vCurrentKeys : List (KeyPoint F)
  vbMap : List Bool
  state : eTrackingState
  deriving DecidableEq, Repr

/-- The locked block of `DrawFrame` ("Copy variables within scoped mutex"): the
drawer after it and the local variables it filled. -/
def DrawFrame.copyVariables {F : Type} (self : FrameDrawer F) : FrameDrawer F × Locals F :=
  let state := self.mState
  let self := if self.mState = SYSTEM_NOT_READY then { self with mState := NO_IMAGES_YET } else self
  let loc : Locals F :=
    { im := self.mIm, vIniKeys := [], vMatches := [], vCurrentKeys := [], vbMap := [],
      state := state }
  if self.mState = NOT_INITIALIZED then
    (self, { loc with vCurrentKeys := self.mvCurrentKeys, vIniKeys := self.mvIniKeys,
                      vMatches := self.mvIniMatches })
  else if self.mState = OK then
    (self, { loc with vCurrentKeys := self.mvCurrentKeys, vbMap := self.mvbMap })
  else if self.mState = LOST then
    (self, { loc with vCurrentKeys := self.mvCurrentKeys })
  else
    (self, loc)

/-- The method `FrameDrawer::DrawTextInfo`: the string `s.str()` it composes and
hands to `cv::putText`.  `mnTracked` is the member it reads in state `OK`. -/
def DrawTextInfo (mpMap : Map) (mnTracked : Int) (nState : eTrackingState) : String :=
  let s := ""
  if nState = NO_IMAGES_YET then
    s ++ " WAITING FOR IMAGES"
  else if nState = NOT_INITIALIZED then
    s ++ " TRYING TO INITIALIZE "
  else if nState = OK then
    let nKFs := mpMap.KeyFramesInMap
    let nMPs := mpMap.MapPointsInMap
    s ++ "KFs: " ++ toString nKFs ++ ", MPs: " ++ toString nMPs ++ ", Matches: "
      ++ toString mnTracked
  else if nState = LOST then
    s ++ " TRACK LOST. TRYING TO RELOCALIZE "
  else if nState = SYSTEM_NOT_READY then
    s ++ " LOADING ORB VOCABULARY. PLEASE WAIT..."
  else
    s

/-- The body of the loop of `DrawFrame` in state `NOT_INITIALIZED`, at index `i`. -/
def DrawFrame.lineBody {F : Type} (vIniKeys : List (KeyPoint F)) (vMatches : List Int)
    (vCurrentKeys : List (KeyPoint F)) (calls : List (CvCall F)) (i : Nat) :
    Option (List (CvCall F)) :=
  match vMatches[i]? with
  | none => none
  | some m =>
    if m ≥ 0 then
      match vIniKeys[i]?, vCurrentKeys[m.toNat]? with
      | some a, some b => some (calls ++ [CvCall.line a.pt b.pt])
      | _, _ => none
    else some calls

/-- The body of the loop of `DrawFrame` in state `OK`, at index `i`; the state of
the loop is the calls made so far and `mnTracked`. -/
def DrawFrame.circleBody {F : Type} (vCurrentKeys : List (KeyPoint F)) (vbMap : List Bool)
    (st : List (CvCall F) × Int) (i : Nat) : Option (List (CvCall F) × Int) :=
  match vbMap[i]? with
  | none => none
  | some b =>
    if b then
      match vCurrentKeys[i]? with
      | none => none
      | some k => some (st.1 ++ [CvCall.circle k.pt], st.2 + 1)
    else some st

/-- What a call of `DrawFrame` leaves: the drawer after the call, the locals
captured in the locked block, the OpenCV calls made on the image in order, and
the status text composed by `DrawTextInfo`. -/
structure Drawn (F : Type) where
  self : FrameDrawer F
  locals : Locals F
  calls : List (CvCall F)
  text : String
  deriving DecidableEq, Repr

/-- The tail of `DrawFrame`: `DrawTextInfo(im,state,imWithInfo)` and the return. -/
def DrawFrame.finish {F : Type} (self : FrameDrawer F) (mpMap : Map) (loc : Locals F)
    (calls : List (CvCall F)) : Drawn F :=
  let text := DrawTextInfo mpMap self.mnTracked loc.state
  { self := self, locals := loc, calls := calls ++ [CvCall.putText text], text := text }

/-- The method `FrameDrawer::DrawFrame`, with `mpMap` the map at the time of the
call.  `none` when the drawing loop reads outside one of its vectors. -/
def DrawFrame {F : Type} (self : FrameDrawer F) (mpMap : Map) : Option (Drawn F) :=
  let (self, loc) := DrawFrame.copyVariables self
  let calls : List (CvCall F) := if loc.im.channels < 3 then [CvCall.cvtColor] else []
  if loc.state = NOT_INITIALIZED then
    ((List.range loc.vMatches.length).foldlM
        (DrawFrame.lineBody loc.vIniKeys loc.vMatches loc.vCurrentKeys) calls).map
      fun calls => DrawFrame.finish self mpMap loc calls
  else if loc.state = OK then
    let self := { self with mnTracked := 0 }
    let n : Int := (loc.vCurrentKeys.length : Int)
    ((List.range n.toNat).foldlM
        (DrawFrame.circleBody loc.vCurrentKeys loc.vbMap) (calls, self.mnTracked)).map
      fun st => DrawFrame.finish { self with mnTracked := st.2 } mpMap loc st.1
  else
    some (DrawFrame.finish self mpMap loc calls)

/-- A run of consecutive `DrawFrame` calls with no `Update` in between, one per
entry of `maps` (the map at the time of each call): the results in order. -/
def DrawFrames {F : Type} (self : FrameDrawer F) : List Map → Option (List (Drawn F))
  | [] => some []
  | mpMap :: maps =>
    match DrawFrame self mpMap with
    | none => none
    | some r => (DrawFrames r.self maps).map fun rs => r :: rs

/-! ## Specification functions and sample inputs -/

/-- The segment for the entry `p.1` of the matches paired with the entry `p.2`
of the reference key points: from `p.2` to the current key point `p.1` points
at, none when `p.1` is negative. -/
def segment {F : Type} (vCurrentKeys : List (KeyPoint F)) (p : Int × KeyPoint F) :
    Option (Point2f F × Point2f F) :=
  if 0 ≤ p.1 then vCurrentKeys[p.1.toNat]?.map fun b => (p.2.pt, b.pt) else none

/-- A drawer in state `OK` with three key points, two of them in the map, and a
count left over from an earlier draw. -/
def sampleOK : FrameDrawer Int :=
  { mIm := Mat.black 2 2, N := 3,
    mvCurrentKeys := [⟨⟨10, 10⟩⟩, ⟨⟨20, 20⟩⟩, ⟨⟨30, 30⟩⟩],
    mvbMap := [true, false, true], mnTracked := 77, mvIniKeys := [], mvIniMatches := [],
    mState := OK }

/-- A drawer in state `NOT_INITIALIZED` with two reference key points, of which
the first is matched to the second current key point. -/
def sampleInit : FrameDrawer Int :=
  { mIm := Mat.black 2 2, N := 2,
    mvCurrentKeys := [⟨⟨1, 1⟩⟩, ⟨⟨6, 6⟩⟩],
    mvbMap := [false, false], mnTracked := 0,
    mvIniKeys := [⟨⟨0, 0⟩⟩, ⟨⟨5, 5⟩⟩], mvIniMatches := [1, -1],
    mState := NOT_INITIALIZED }

/-- A drawer in state `NOT_INITIALIZED` with no reference key point and one match. -/
def sampleShortIni : FrameDrawer Int :=
  { mIm := Mat.black 2 2, N := 1,
    mvCurrentKeys := [⟨⟨1, 1⟩⟩],
    mvbMap := [false], mnTracked := 0,
    mvIniKeys := [], mvIniMatches := [0],
    mState := NOT_INITIALIZED }

/-- A drawer in state `NOT_INITIALIZED` with fewer reference key points than
matches, the matches beyond them negative. -/
def sampleTrailing : FrameDrawer Int :=
  { mIm := Mat.black 2 2, N := 1,
    mvCurrentKeys := [⟨⟨1, 1⟩⟩],
    mvbMap := [false], mnTracked := 0,
    mvIniKeys := [⟨⟨0, 0⟩⟩], mvIniMatches := [0, -1, -1],
    mState := NOT_INITIALIZED }

/-- An `Update` in state `NOT_INITIALIZED` with one reference key point. -/
def trackInit : Tracking Int :=
  { mImGray := { rows := 1, cols := 2, channels := 1, data := [7, 8] }
    mCurrentFrame := { mvKeys := [⟨⟨1, 1⟩⟩], mvpMapPoints := [none], mvbOutlier := [false] }
    mInitialFrame := { mvKeys := [⟨⟨9, 9⟩⟩], mvpMapPoints := [none], mvbOutlier := [false] }
    mvIniMatches := [0]
    mLastProcessedState := NOT_INITIALIZED }

/-- An `Update` in state `OK` with three key points: one in the map, one in the
map but an outlier, one without map point. -/
def trackOK : Tracking Int :=
  { mImGray := { rows := 1, cols := 2, channels := 1, data := [9, 10] }
    mCurrentFrame := { mvKeys := [⟨⟨3, 3⟩⟩, ⟨⟨4, 4⟩⟩, ⟨⟨5, 5⟩⟩],
                       mvpMapPoints := [some 1, some 2, none],
                       mvbOutlier := [false, true, false] }
    mInitialFrame := { mvKeys := [], mvpMapPoints := [], mvbOutlier := [] }
    mvIniMatches := []
    mLastProcessedState := OK }

/-! ## Lemmas on the loops and on the methods -/

section Loops

variable {F : Type}

/-- A loop over `Option` whose body succeeds or fails independently of the
loop state returns exactly when the body succeeds at every index. -/
theorem foldlM_isSome_iff {σ : Type} (body : σ → Nat → Option σ) (ok : Nat → Prop)
    (h : ∀ s i, (body s i).isSome ↔ ok i) (l : List Nat) :
    ∀ init, (l.foldlM body init).isSome ↔ ∀ i ∈ l, ok i := by
  induction l with
  | nil => intro init; simp
  | cons a l ih =>
    intro init
    rw [List.foldlM_cons]
    cases hb : body init a with
    | none =>
      have h1 : ¬ ok a := by
        intro hok
        have := (h init a).2 hok
        rw [hb] at this
        simp at this
      simp [h1]
    | some s =>
      have h1 : ok a := by
        apply (h init a).1
        rw [hb]; rfl
      simp [ih, h1]

theorem lineBody_isSome (vIniKeys : List (KeyPoint F)) (vMatches : List Int)
    (vCurrentKeys : List (KeyPoint F)) (calls : List (CvCall F)) (i : Nat) :
    (DrawFrame.lineBody vIniKeys vMatches vCurrentKeys calls i).isSome ↔
      ∃ m, vMatches[i]? = some m ∧
        (0 ≤ m → i < vIniKeys.length ∧ m.toNat < vCurrentKeys.length) := by
  unfold DrawFrame.lineBody
  cases hm : vMatches[i]? with
  | none => simp
  | some m =>
    have hex : (∃ m1, some m = some m1 ∧
        (0 ≤ m1 → i < vIniKeys.length ∧ m1.toNat < vCurrentKeys.length)) ↔
        (0 ≤ m → i < vIniKeys.length ∧ m.toNat < vCurrentKeys.length) := by
      constructor
      · rintro ⟨m1, h1, h2⟩
        cases h1
        exact h2
      · intro h
        exact ⟨m, rfl, h⟩
    rw [hex]
    by_cases h0 : m ≥ 0
    · cases ha : vIniKeys[i]? with
      | none =>
        have : vIniKeys.length ≤ i := List.getElem?_eq_none_iff.1 ha
        simp only [h0, if_true, Option.isSome_none]
        constructor
        · intro h; cases h
        · intro h; have := (h trivial).1; omega
      | some a =>
        have hi : i < vIniKeys.length := (List.getElem?_eq_some_iff.1 ha).1
        cases hb : vCurrentKeys[m.toNat]? with
        | none =>
          have : vCurrentKeys.length ≤ m.toNat := List.getElem?_eq_none_iff.1 hb
          simp only [h0, if_true, hb, Option.isSome_none]
          constructor
          · intro h; cases h
          · intro h; have := (h trivial).2; omega
        | some b =>
          have hj : m.toNat < vCurrentKeys.length := (List.getElem?_eq_some_iff.1 hb).1
          simp only [h0, if_true, hb, Option.isSome_some, true_iff]
          intro _
          exact ⟨hi, hj⟩
    · have : ¬ (0 ≤ m) := h0
      simp [h0, this]

theorem lineLoop_eq (vIniKeys : List (KeyPoint F)) (vMatches : List Int)
    (vCurrentKeys : List (KeyPoint F)) (calls : List (CvCall F))
    (hvalid : ∀ (i : Nat) (m : Int), vMatches[i]? = some m → 0 ≤ m →
      m.toNat < vCurrentKeys.length) :
    ∀ n, n ≤ vMatches.length → n ≤ vIniKeys.length →
      (List.range n).foldlM (DrawFrame.lineBody vIniKeys vMatches vCurrentKeys) calls =
        some (calls ++ (((vMatches.take n).zip (vIniKeys.take n)).filterMap
          (segment vCurrentKeys)).map fun q => CvCall.line q.1 q.2) := by
  intro n
  induction n with
  | zero => intro _ _; simp
  | succ n ih =>
    intro h1 h2
    have hm : vMatches[n]? = some vMatches[n] := List.getElem?_eq_getElem (by omega)
    have ha : vIniKeys[n]? = some vIniKeys[n] := List.getElem?_eq_getElem (by omega)
    rw [List.range_succ, List.foldlM_append, ih (by omega) (by omega)]
    rw [List.take_succ, List.take_succ, hm, ha]
    have hlen : (vMatches.take n).length = (vIniKeys.take n).length := by
      rw [List.length_take, List.length_take]; omega
    simp only [Option.toList_some]
    rw [List.zip_append hlen, List.filterMap_append, List.map_append, ← List.append_assoc]
    simp only [Option.some_bind, List.foldlM_cons, List.foldlM_nil, DrawFrame.lineBody, hm, ha]
    by_cases h0 : vMatches[n] ≥ 0
    · have hj := hvalid n _ hm h0
      have hb : vCurrentKeys[vMatches[n].toNat]? = some vCurrentKeys[vMatches[n].toNat] :=
        List.getElem?_eq_getElem hj
      have h0b : 0 ≤ vMatches[n] := h0
      simp [h0, hb, segment, h0b]
    · have h0b : ¬ 0 ≤ vMatches[n] := h0
      simp [h0, segment, h0b]

theorem circleBody_isSome (vCurrentKeys : List (KeyPoint F)) (vbMap : List Bool)
    (st : List (CvCall F) × Int) (i : Nat) :
    (DrawFrame.circleBody vCurrentKeys vbMap st i).isSome ↔
      ∃ b, vbMap[i]? = some b ∧ (b = true → i < vCurrentKeys.length) := by
  unfold DrawFrame.circleBody
  cases hb : vbMap[i]? with
  | none => simp
  | some b =>
    cases b with
    | false => simp
    | true =>
      cases hk : vCurrentKeys[i]? with
      | none =>
        have : vCurrentKeys.length ≤ i := List.getElem?_eq_none_iff.1 hk
        simp
        omega
      | some k =>
        have : i < vCurrentKeys.length := (List.getElem?_eq_some_iff.1 hk).1
        simp [this]

theorem circleLoop_eq (vCurrentKeys : List (KeyPoint F)) (vbMap : List Bool)
    (calls : List (CvCall F)) (c : Int) :
    ∀ n, n ≤ vCurrentKeys.length → n ≤ vbMap.length →
      (List.range n).foldlM (DrawFrame.circleBody vCurrentKeys vbMap) (calls, c) =
        some (calls ++ (((vCurrentKeys.take n).zip (vbMap.take n)).filter fun p => p.2).map
                fun p => CvCall.circle p.1.pt,
              c + ((vbMap.take n).count true : Nat)) := by
  intro n
  induction n with
  | zero => intro _ _; simp
  | succ n ih =>
    intro h1 h2
    have hk : vCurrentKeys[n]? = some vCurrentKeys[n] := List.getElem?_eq_getElem (by omega)
    have hb : vbMap[n]? = some vbMap[n] := List.getElem?_eq_getElem (by omega)
    rw [List.range_succ, List.foldlM_append, ih (by omega) (by omega)]
    rw [List.take_succ, List.take_succ, hk, hb]
    have hlen : (vCurrentKeys.take n).length = (vbMap.take n).length := by
      rw [List.length_take, List.length_take]; omega
    simp only [Option.toList_some]
    rw [List.zip_append hlen, List.filter_append, List.map_append, ← List.append_assoc,
      List.count_append]
    simp only [Option.some_bind, List.foldlM_cons, List.foldlM_nil, DrawFrame.circleBody, hk, hb]
    cases hv : vbMap[n] with
    | false => simp
    | true => simp; omega

theorem updateLoop_eq (mvpMapPoints : List (Option Nat)) (mvbOutlier : List Bool) (N : Nat)
    (hmp : N ≤ mvpMapPoints.length) (hol : N ≤ mvbOutlier.length) :
    ∀ n, n ≤ N →
      (List.range n).foldlM (Update.body mvpMapPoints mvbOutlier) (List.replicate N false) =
        some ((List.zipWith (fun p o => p.isSome && !o) mvpMapPoints mvbOutlier).take n
              ++ List.replicate (N - n) false) := by
  intro n
  induction n with
  | zero => intro _; simp
  | succ n ih =>
    intro h1
    have hp : mvpMapPoints[n]? = some mvpMapPoints[n] := List.getElem?_eq_getElem (by omega)
    have ho : mvbOutlier[n]? = some mvbOutlier[n] := List.getElem?_eq_getElem (by omega)
    have hz : (List.zipWith (fun (p : Option Nat) o => p.isSome && !o) mvpMapPoints
        mvbOutlier)[n]? = some (mvpMapPoints[n].isSome && !mvbOutlier[n]) := by
      rw [List.getElem?_zipWith, hp, ho]
    have hlen : ((List.zipWith (fun (p : Option Nat) o => p.isSome && !o) mvpMapPoints
        mvbOutlier).take n).length = n := by
      rw [List.length_take, List.length_zipWith]; omega
    have hrep : List.replicate (N - n) false = false :: List.replicate (N - (n + 1)) false := by
      rw [show N - n = (N - (n + 1)) + 1 by omega, List.replicate_succ]
    rw [List.range_succ, List.foldlM_append, ih (by omega)]
    rw [List.take_succ, hz, hrep]
    simp only [Option.some_bind, List.foldlM_cons, List.foldlM_nil, Update.body, hp, ho,
      Option.toList_some, List.append_assoc, List.singleton_append]
    cases hpn : mvpMapPoints[n].isSome with
    | false => simp
    | true =>
      cases hon : mvbOutlier[n] with
      | true => simp
      | false =>
        simp only [Bool.not_false, if_true, Bool.and_self, Option.bind_eq_bind,
          Option.some_bind, Option.pure_def]
        rw [List.set_append_right _ _ (by rw [hlen]), hlen, Nat.sub_self, List.set_cons_zero]

theorem lines_single_putText (calls : List (CvCall F)) (t : String) :
    lines (calls ++ [CvCall.putText t]) = lines calls := by
  simp [lines]

theorem markers_single_putText (calls : List (CvCall F)) (t : String) :
    markers (calls ++ [CvCall.putText t]) = markers calls := by
  simp [markers]

theorem lines_cvt (c : Prop) [Decidable c] :
    lines (if c then [CvCall.cvtColor] else ([] : List (CvCall F))) = [] := by
  split <;> simp [lines]

theorem markers_cvt (c : Prop) [Decidable c] :
    markers (if c then [CvCall.cvtColor] else ([] : List (CvCall F))) = [] := by
  split <;> simp [markers]

/-- In a state other than `NOT_INITIALIZED` and `OK`, `DrawFrame` runs no loop. -/
theorem DrawFrame_idle (d : FrameDrawer F) (mpMap : Map)
    (h1 : d.mState ≠ NOT_INITIALIZED) (h2 : d.mState ≠ OK) :
    DrawFrame d mpMap =
      some (DrawFrame.finish (if d.mState = SYSTEM_NOT_READY then { d with mState := NO_IMAGES_YET }
              else d) mpMap
            { im := d.mIm, vIniKeys := [], vMatches := [],
              vCurrentKeys := if d.mState = LOST then d.mvCurrentKeys else [], vbMap := [],
              state := d.mState }
            (if d.mIm.channels < 3 then [CvCall.cvtColor] else [])) := by
  obtain ⟨mIm, N, keys, vb, tr, ik, im, st⟩ := d
  cases st <;> simp_all [DrawFrame, DrawFrame.copyVariables]

/-- With `NO_IMAGES_YET` stored, any run of `DrawFrame` calls returns, each call
captures `NO_IMAGES_YET` and leaves the drawer as it was. -/
theorem DrawFrames_no_images (d : FrameDrawer F) (h : d.mState = NO_IMAGES_YET) :
    ∀ maps : List Map, ∃ rs, DrawFrames d maps = some rs ∧ rs.length = maps.length ∧
      ∀ r ∈ rs, r.locals.state = NO_IMAGES_YET ∧ r.self = d := by
  intro maps
  induction maps with
  | nil => exact ⟨[], rfl, rfl, by simp⟩
  | cons m maps ih =>
    obtain ⟨rs, h1, h2, h3⟩ := ih
    obtain ⟨r, hr, hself, hstate⟩ : ∃ r, DrawFrame d m = some r ∧ r.self = d ∧
        r.locals.state = NO_IMAGES_YET :=
      ⟨_, DrawFrame_idle d m (by simp [h]) (by simp [h]), by simp [DrawFrame.finish, h],
        by simp [DrawFrame.finish, h]⟩
    refine ⟨r :: rs, ?_, by simp [h2], ?_⟩
    · simp only [DrawFrames, hr, hself, h1, Option.map_some']
    · intro r2 hr2
      rcases List.mem_cons.1 hr2 with rfl | hr2
      · exact ⟨hstate, hself⟩
      · exact h3 r2 hr2

/-- A second `DrawFrame` leaves the drawer as the first one left it. -/
theorem DrawFrame_self_idem (d : FrameDrawer F) (mpMap mpMap2 : Map) (r r2 : Drawn F)
    (h1 : DrawFrame d mpMap = some r) (h2 : DrawFrame r.self mpMap2 = some r2) :
    r2.self = r.self := by
  obtain ⟨mIm, N, keys, vb, tr, ik, im, st⟩ := d
  cases st
  all_goals
    simp only [DrawFrame, DrawFrame.copyVariables, DrawFrame.finish, Option.map_eq_some',
      reduceCtorEq, if_true, if_false, Option.some.injEq] at h1
  · subst h1
    simp [DrawFrame, DrawFrame.copyVariables, DrawFrame.finish] at h2
    subst h2; rfl
  · subst h1
    simp [DrawFrame, DrawFrame.copyVariables, DrawFrame.finish] at h2
    subst h2; rfl
  · obtain ⟨c, hc, rfl⟩ := h1
    simp [DrawFrame, DrawFrame.copyVariables, DrawFrame.finish] at h2
    obtain ⟨c2, hc2, rfl⟩ := h2
    rfl
  · obtain ⟨c, hc, rfl⟩ := h1
    simp only [Int.toNat_ofNat] at hc
    simp [DrawFrame, DrawFrame.copyVariables, DrawFrame.finish, hc] at h2
    subst h2; rfl
  · subst h1
    simp [DrawFrame, DrawFrame.copyVariables, DrawFrame.finish] at h2
    subst h2; rfl

/-- The stored state after `DrawFrame`. -/
theorem DrawFrame_self_mState (d : FrameDrawer F) (mpMap : Map) (r : Drawn F)
    (h1 : DrawFrame d mpMap = some r) :
    r.self.mState = if d.mState = SYSTEM_NOT_READY then NO_IMAGES_YET else d.mState := by
  obtain ⟨mIm, N, keys, vb, tr, ik, im, st⟩ := d
  cases st
  all_goals
    simp only [DrawFrame, DrawFrame.copyVariables, DrawFrame.finish, Option.map_eq_some',
      reduceCtorEq, if_true, if_false, Option.some.injEq] at h1
  · subst h1; rfl
  · subst h1; rfl
  · obtain ⟨c, hc, rfl⟩ := h1; rfl
  · obtain ⟨c, hc, rfl⟩ := h1; rfl
  · subst h1; rfl

/-- What `DrawFrame` is in state `OK`, as a loop over the stored vectors. -/
theorem DrawFrame_OK_unfold (d : FrameDrawer F) (mpMap : Map) (hs : d.mState = OK) :
    DrawFrame d mpMap =
      ((List.range d.mvCurrentKeys.length).foldlM
          (DrawFrame.circleBody d.mvCurrentKeys d.mvbMap)
          (if d.mIm.channels < 3 then [CvCall.cvtColor] else [], (0 : Int))).map
        fun st => DrawFrame.finish { d with mnTracked := st.2 } mpMap
          { im := d.mIm, vIniKeys := [], vMatches := [], vCurrentKeys := d.mvCurrentKeys,
            vbMap := d.mvbMap, state := OK } st.1 := by
  obtain ⟨mIm, N, keys, vb, tr, ik, im, st⟩ := d
  cases hs
  simp [DrawFrame, DrawFrame.copyVariables]

/-- What `DrawFrame` is in state `NOT_INITIALIZED`, as a loop over the stored
vectors. -/
theorem DrawFrame_NOT_INITIALIZED_unfold (d : FrameDrawer F) (mpMap : Map)
    (hs : d.mState = NOT_INITIALIZED) :
    DrawFrame d mpMap =
      ((List.range d.mvIniMatches.length).foldlM
          (DrawFrame.lineBody d.mvIniKeys d.mvIniMatches d.mvCurrentKeys)
          (if d.mIm.channels < 3 then [CvCall.cvtColor] else [])).map
        fun calls => DrawFrame.finish d mpMap
          { im := d.mIm, vIniKeys := d.mvIniKeys, vMatches := d.mvIniMatches,
            vCurrentKeys := d.mvCurrentKeys, vbMap := [], state := NOT_INITIALIZED } calls := by
  obtain ⟨mIm, N, keys, vb, tr, ik, im, st⟩ := d
  cases hs
  simp [DrawFrame, DrawFrame.copyVariables]

/-- In state `OK`, `DrawFrame` returns exactly when the membership vector is at
least as long as the current key points. -/
theorem DrawFrame_OK_isSome (d : FrameDrawer F) (mpMap : Map) (hs : d.mState = OK) :
    (DrawFrame d mpMap).isSome ↔ d.mvCurrentKeys.length ≤ d.mvbMap.length := by
  rw [DrawFrame_OK_unfold d mpMap hs, Option.isSome_map',
    foldlM_isSome_iff _ _ (circleBody_isSome d.mvCurrentKeys d.mvbMap)]
  constructor
  · intro h
    by_contra hlt
    obtain ⟨b, hb, -⟩ := h d.mvbMap.length (List.mem_range.2 (by omega))
    rw [List.getElem?_eq_none_iff.2 (Nat.le_refl _)] at hb
    cases hb
  · intro h i hi
    have hi2 : i < d.mvCurrentKeys.length := List.mem_range.1 hi
    exact ⟨d.mvbMap[i], List.getElem?_eq_getElem (by omega), fun _ => hi2⟩

/-- In state `NOT_INITIALIZED`, `DrawFrame` returns exactly when each index with a
non-negative match has a reference key point and the match is an index into
the current key points. -/
theorem DrawFrame_NOT_INITIALIZED_isSome (d : FrameDrawer F) (mpMap : Map)
    (hs : d.mState = NOT_INITIALIZED) :
    (DrawFrame d mpMap).isSome ↔
      ∀ (i : Nat) (m : Int), d.mvIniMatches[i]? = some m → 0 ≤ m →
        i < d.mvIniKeys.length ∧ m.toNat < d.mvCurrentKeys.length := by
  rw [DrawFrame_NOT_INITIALIZED_unfold d mpMap hs, Option.isSome_map',
    foldlM_isSome_iff _ _ (lineBody_isSome d.mvIniKeys d.mvIniMatches d.mvCurrentKeys)]
  constructor
  · intro h i m hm h0
    have hi : i < d.mvIniMatches.length := (List.getElem?_eq_some_iff.1 hm).1
    obtain ⟨m1, h1, h2⟩ := h i (List.mem_range.2 hi)
    rw [hm] at h1
    cases h1
    exact h2 h0
  · intro h i hi
    have hi2 : i < d.mvIniMatches.length := List.mem_range.1 hi
    exact ⟨d.mvIniMatches[i], List.getElem?_eq_getElem hi2,
      h i _ (List.getElem?_eq_getElem hi2)⟩

theorem zip_filter_length {α : Type} (keys : List α) :
    ∀ vb : List Bool, vb.length ≤ keys.length →
      ((keys.zip vb).filter fun p => p.2).length = vb.count true := by
  induction keys with
  | nil =>
    intro vb h
    have : vb = [] := List.length_eq_zero.1 (Nat.le_zero.1 h)
    subst this
    rfl
  | cons k keys ih =>
    intro vb h
    cases vb with
    | nil => rfl
    | cons b vb =>
      have h2 : vb.length ≤ keys.length := by simpa using h
      cases b <;> simp [List.filter_cons, ih vb h2]

theorem markers_circles {α : Type} (l : List α) (f : α → Point2f F) :
    markers (l.map fun p => CvCall.circle (f p)) = l.map f := by
  induction l with
  | nil => rfl
  | cons a l ih => simp [markers] at ih ⊢; exact ih

theorem lines_circles {α : Type} (l : List α) (f : α → Point2f F) :
    lines (l.map fun p => CvCall.circle (f p)) = [] := by
  induction l with
  | nil => rfl
  | cons a l ih => simp [lines] at ih ⊢

theorem lines_lines (l : List (Point2f F × Point2f F)) :
    lines (l.map fun q => CvCall.line q.1 q.2) = l := by
  induction l with
  | nil => rfl
  | cons a l ih => simp [lines] at ih ⊢; exact ih

theorem markers_lines (l : List (Point2f F × Point2f F)) :
    markers (l.map fun q => CvCall.line q.1 q.2) = [] := by
  induction l with
  | nil => rfl
  | cons a l ih => simp [markers] at ih ⊢

theorem lines_putText (t : String) : lines [(CvCall.putText t : CvCall F)] = [] := rfl

theorem markers_putText (t : String) : markers [(CvCall.putText t : CvCall F)] = [] := rfl

theorem lines_append (a b : List (CvCall F)) : lines (a ++ b) = lines a ++ lines b := by
  simp [lines]

theorem markers_append (a b : List (CvCall F)) : markers (a ++ b) = markers a ++ markers b := by
  simp [markers]

/-- In state `OK` with a membership vector long enough, the result of `DrawFrame`. -/
theorem DrawFrame_OK_eq (d : FrameDrawer F) (mpMap : Map) (hs : d.mState = OK)
    (hlen : d.mvCurrentKeys.length ≤ d.mvbMap.length) :
    DrawFrame d mpMap =
      some (DrawFrame.finish
        { d with mnTracked := (((d.mvbMap.take d.mvCurrentKeys.length).count true : Nat) : Int) }
        mpMap
        { im := d.mIm, vIniKeys := [], vMatches := [], vCurrentKeys := d.mvCurrentKeys,
          vbMap := d.mvbMap, state := OK }
        ((if d.mIm.channels < 3 then [CvCall.cvtColor] else []) ++
          (((d.mvCurrentKeys.zip (d.mvbMap.take d.mvCurrentKeys.length)).filter
            fun p => p.2).map fun p => CvCall.circle p.1.pt))) := by
  rw [DrawFrame_OK_unfold d mpMap hs,
    circleLoop_eq d.mvCurrentKeys d.mvbMap _ 0 d.mvCurrentKeys.length (Nat.le_refl _) hlen]
  simp

theorem segments_length (vCurrentKeys : List (KeyPoint F)) (vMatches : List Int) :
    ∀ vIniKeys : List (KeyPoint F), vMatches.length ≤ vIniKeys.length →
      (∀ m ∈ vMatches, 0 ≤ m → m.toNat < vCurrentKeys.length) →
      ((vMatches.zip vIniKeys).filterMap (segment vCurrentKeys)).length =
        (vMatches.filter fun m => decide (0 ≤ m)).length := by
  induction vMatches with
  | nil => intro _ _ _; rfl
  | cons m ms ih =>
    intro vIniKeys hlen hvalid
    cases vIniKeys with
    | nil => simp at hlen
    | cons a as =>
      have h2 : ms.length ≤ as.length := by simpa using hlen
      have ih2 := ih as h2 (fun x hx => hvalid x (List.mem_cons_of_mem _ hx))
      by_cases h0 : 0 ≤ m
      · have hj := hvalid m (List.mem_cons_self _ _) h0
        have hb : vCurrentKeys[m.toNat]? = some vCurrentKeys[m.toNat] :=
          List.getElem?_eq_getElem hj
        simp [segment, h0, hb, ih2]
      · simp [segment, h0, ih2]

/-- In state `NOT_INITIALIZED` with every read in range, the result of `DrawFrame`. -/
theorem DrawFrame_NOT_INITIALIZED_eq (d : FrameDrawer F) (mpMap : Map)
    (hs : d.mState = NOT_INITIALIZED) (hlen : d.mvIniMatches.length ≤ d.mvIniKeys.length)
    (hvalid : ∀ (i : Nat) (m : Int), d.mvIniMatches[i]? = some m → 0 ≤ m →
      m.toNat < d.mvCurrentKeys.length) :
    DrawFrame d mpMap =
      some (DrawFrame.finish d mpMap
        { im := d.mIm, vIniKeys := d.mvIniKeys, vMatches := d.mvIniMatches,
          vCurrentKeys := d.mvCurrentKeys, vbMap := [], state := NOT_INITIALIZED }
        ((if d.mIm.channels < 3 then [CvCall.cvtColor] else []) ++
          (((d.mvIniMatches.zip (d.mvIniKeys.take d.mvIniMatches.length)).filterMap
            (segment d.mvCurrentKeys)).map fun q => CvCall.line q.1 q.2))) := by
  rw [DrawFrame_NOT_INITIALIZED_unfold d mpMap hs,
    lineLoop_eq d.mvIniKeys d.mvIniMatches d.mvCurrentKeys _ hvalid d.mvIniMatches.length
      (Nat.le_refl _) hlen]
  simp

theorem zip_take_left {α β : Type} (l : List α) (k : List β) :
    l.zip (k.take l.length) = l.zip k := by
  induction l generalizing k with
  | nil => simp
  | cons a l ih =>
    cases k with
    | nil => simp
    | cons b k => simp [ih]

/-- The members `DrawFrame` leaves as they were. -/
theorem DrawFrame_frame (d : FrameDrawer F) (mpMap : Map) (r : Drawn F)
    (h1 : DrawFrame d mpMap = some r) :
    r.self.mIm = d.mIm ∧ r.self.N = d.N ∧ r.self.mvCurrentKeys = d.mvCurrentKeys ∧
    r.self.mvIniKeys = d.mvIniKeys ∧ r.self.mvIniMatches = d.mvIniMatches ∧
    r.self.mvbMap = d.mvbMap ∧ (d.mState ≠ OK → r.self.mnTracked = d.mnTracked) := by
  obtain ⟨mIm, N, keys, vb, tr, ik, im, st⟩ := d
  cases st
  all_goals
    simp only [DrawFrame, DrawFrame.copyVariables, DrawFrame.finish, Option.map_eq_some',
      reduceCtorEq, if_true, if_false, Option.some.injEq] at h1
  · subst h1; simp
  · subst h1; simp
  · obtain ⟨c, hc, rfl⟩ := h1; simp
  · obtain ⟨c, hc, rfl⟩ := h1; simp
  · subst h1; simp

/-- In state `OK`, `mnTracked` after `DrawFrame` is the number of markers drawn. -/
theorem DrawFrame_OK_tracked (d : FrameDrawer F) (mpMap : Map) (r : Drawn F)
    (hs : d.mState = OK) (h1 : DrawFrame d mpMap = some r) :
    r.self.mnTracked = (((markers r.calls).length : Nat) : Int) := by
  have hlen : d.mvCurrentKeys.length ≤ d.mvbMap.length := by
    rw [← DrawFrame_OK_isSome d mpMap hs, h1]; rfl
  rw [DrawFrame_OK_eq d mpMap hs hlen] at h1
  cases h1
  simp only [DrawFrame.finish, markers_putText, markers_append, markers_cvt,
    List.nil_append, List.append_nil]
  rw [markers_circles _ (fun p : KeyPoint F × Bool => p.1.pt), List.length_map,
    zip_filter_length _ _ (by rw [List.length_take]; omega)]

/-- What `Update` is in state `OK`, as a loop over the vectors of the frame. -/
theorem Update_OK_unfold (d : FrameDrawer F) (t : Tracking F)
    (hs : t.mLastProcessedState = OK) :
    Update d t =
      ((List.range t.mCurrentFrame.mvKeys.length).foldlM
          (Update.body t.mCurrentFrame.mvpMapPoints t.mCurrentFrame.mvbOutlier)
          (List.replicate t.mCurrentFrame.mvKeys.length false)).map
        fun vb => { d with mIm := t.mImGray, mvCurrentKeys := t.mCurrentFrame.mvKeys,
                           N := (t.mCurrentFrame.mvKeys.length : Int), mvbMap := vb,
                           mState := OK } := by
  simp [Update, hs]

/-- The result of `Update` in state `OK` when the frame has a map point entry and
an outlier flag for every key point. -/
theorem Update_OK_eq (d : FrameDrawer F) (t : Tracking F)
    (hs : t.mLastProcessedState = OK)
    (hmp : t.mCurrentFrame.mvKeys.length ≤ t.mCurrentFrame.mvpMapPoints.length)
    (hol : t.mCurrentFrame.mvKeys.length ≤ t.mCurrentFrame.mvbOutlier.length) :
    Update d t =
      some { d with mIm := t.mImGray, mvCurrentKeys := t.mCurrentFrame.mvKeys,
                    N := (t.mCurrentFrame.mvKeys.length : Int),
                    mvbMap := (List.zipWith (fun p o => p.isSome && !o)
                      t.mCurrentFrame.mvpMapPoints t.mCurrentFrame.mvbOutlier).take
                        t.mCurrentFrame.mvKeys.length,
                    mState := OK } := by
  rw [Update_OK_unfold d t hs, updateLoop_eq _ _ _ hmp hol _ (Nat.le_refl _)]
  simp

/-- The result of `Update` in state `NOT_INITIALIZED`. -/
theorem Update_NOT_INITIALIZED_eq (d : FrameDrawer F) (t : Tracking F)
    (hs : t.mLastProcessedState = NOT_INITIALIZED) :
    Update d t =
      some { d with mIm := t.mImGray, mvCurrentKeys := t.mCurrentFrame.mvKeys,
                    N := (t.mCurrentFrame.mvKeys.length : Int),
                    mvbMap := List.replicate t.mCurrentFrame.mvKeys.length false,
                    mvIniKeys := t.mInitialFrame.mvKeys, mvIniMatches := t.mvIniMatches,
                    mState := NOT_INITIALIZED } := by
  simp [Update, hs]

/-- The result of `Update` in a state other than `NOT_INITIALIZED` and `OK`. -/
theorem Update_other_eq (d : FrameDrawer F) (t : Tracking F)
    (h1 : t.mLastProcessedState ≠ NOT_INITIALIZED) (h2 : t.mLastProcessedState ≠ OK) :
    Update d t =
      some { d with mIm := t.mImGray, mvCurrentKeys := t.mCurrentFrame.mvKeys,
                    N := (t.mCurrentFrame.mvKeys.length : Int),
                    mvbMap := List.replicate t.mCurrentFrame.mvKeys.length false,
                    mState := t.mLastProcessedState } := by
  simp [Update, h1, h2]

/-- The locals a returning `DrawFrame` reports are those of its locked block. -/
theorem DrawFrame_locals (d : FrameDrawer F) (mpMap : Map) (r : Drawn F)
    (h1 : DrawFrame d mpMap = some r) : r.locals = (DrawFrame.copyVariables d).2 := by
  obtain ⟨mIm, N, keys, vb, tr, ik, im, st⟩ := d
  cases st
  all_goals
    simp only [DrawFrame, DrawFrame.copyVariables, DrawFrame.finish, Option.map_eq_some',
      reduceCtorEq, if_true, if_false, Option.some.injEq] at h1
  · subst h1; simp [DrawFrame.copyVariables]
  · subst h1; simp [DrawFrame.copyVariables]
  · obtain ⟨c, hc, rfl⟩ := h1; simp [DrawFrame.copyVariables]
  · obtain ⟨c, hc, rfl⟩ := h1; simp [DrawFrame.copyVariables]
  · subst h1; simp [DrawFrame.copyVariables]

theorem membership_entry (mvpMapPoints : List (Option Nat)) (mvbOutlier : List Bool)
    (n i : Nat) (hi : i < n) (hmp : n ≤ mvpMapPoints.length) (hol : n ≤ mvbOutlier.length) :
    ((List.zipWith (fun (p : Option Nat) o => p.isSome && !o) mvpMapPoints mvbOutlier).take
        n)[i]? = some true ↔
      (∃ a, mvpMapPoints[i]? = some (some a)) ∧ mvbOutlier[i]? = some false := by
  have hp : mvpMapPoints[i]? = some mvpMapPoints[i] := List.getElem?_eq_getElem (by omega)
  have ho : mvbOutlier[i]? = some mvbOutlier[i] := List.getElem?_eq_getElem (by omega)
  rw [List.getElem?_take_of_lt hi, List.getElem?_zipWith, hp, ho]
  cases hx : mvpMapPoints[i] <;> cases hy : mvbOutlier[i] <;> simp

end Loops

/-! ## The claims -/









/-- C1 (as amended): when the stored state is `SYSTEM_NOT_READY`, the first
`DrawFrame` draws with the state read before the promotion, `SYSTEM_NOT_READY`: no
line, no marker, the text " LOADING ORB VOCABULARY. PLEASE WAIT...", and it leaves
the stored state `NO_IMAGES_YET`; the `DrawFrame` after it draws with
`NO_IMAGES_YET`: no line, no marker, the text " WAITING FOR IMAGES". -/
theorem C1_first_draw_shows_not_ready {F : Type} (d : FrameDrawer F) (mpMap : Map)
    (h : d.mState = SYSTEM_NOT_READY) :
    ∃ r, DrawFrame d mpMap = some r ∧ r.locals.state = SYSTEM_NOT_READY ∧
      lines r.calls = [] ∧ markers r.calls = [] ∧
      r.text = " LOADING ORB VOCABULARY. PLEASE WAIT..." ∧
      r.self.mState = NO_IMAGES_YET ∧
      ∀ mpMap2, ∃ r2, DrawFrame r.self mpMap2 = some r2 ∧ r2.locals.state = NO_IMAGES_YET ∧
        lines r2.calls = [] ∧ markers r2.calls = [] ∧ r2.text = " WAITING FOR IMAGES" := by
  refine ⟨_, DrawFrame_idle d mpMap (by simp [h]) (by simp [h]), ?_⟩
  refine ⟨by simp [DrawFrame.finish, h], ?_, ?_, ?_, ?_, ?_⟩
  · simp only [DrawFrame.finish, lines_single_putText, lines_cvt]
  · simp only [DrawFrame.finish, markers_single_putText, markers_cvt]
  · simp [DrawFrame.finish, h, DrawTextInfo]
  · simp [DrawFrame.finish, h]
  · intro mpMap2
    refine ⟨_, DrawFrame_idle _ mpMap2 (by simp [DrawFrame.finish, h])
      (by simp [DrawFrame.finish, h]), ?_⟩
    refine ⟨by simp [DrawFrame.finish, h], ?_, ?_, ?_⟩
    · simp only [DrawFrame.finish, lines_single_putText, lines_cvt]
    · simp only [DrawFrame.finish, markers_single_putText, markers_cvt]
    · simp [DrawFrame.finish, h, DrawTextInfo]

/-- C1 (witness): the amended statement at a freshly constructed drawer. -/
theorem C1_first_draw_shows_not_ready_witness :
    ∃ r, DrawFrame (FrameDrawer.FrameDrawer 2 2 0 0 : FrameDrawer Int) ⟨0, 0⟩ = some r ∧
      r.locals.state = SYSTEM_NOT_READY ∧
      lines r.calls = [] ∧ markers r.calls = [] ∧
      r.text = " LOADING ORB VOCABULARY. PLEASE WAIT..." ∧
      r.self.mState = NO_IMAGES_YET ∧
      ∀ mpMap2, ∃ r2, DrawFrame r.self mpMap2 = some r2 ∧ r2.locals.state = NO_IMAGES_YET ∧
        lines r2.calls = [] ∧ markers r2.calls = [] ∧ r2.text = " WAITING FOR IMAGES" :=
  C1_first_draw_shows_not_ready (FrameDrawer.FrameDrawer 2 2 0 0) ⟨0, 0⟩ rfl

/-- C1 (counterexample): on a freshly constructed drawer the first `DrawFrame`
draws with `SYSTEM_NOT_READY`, not `NO_IMAGES_YET`, and its text is the loading
message, not "WAITING FOR IMAGES". -/
theorem C1_counterexample :
    ∃ r, DrawFrame (FrameDrawer.FrameDrawer 2 2 0 0 : FrameDrawer Int) ⟨0, 0⟩ = some r ∧
      r.locals.state = SYSTEM_NOT_READY ∧ r.locals.state ≠ NO_IMAGES_YET ∧
      r.text = " LOADING ORB VOCABULARY. PLEASE WAIT..." ∧
      r.text ≠ "WAITING FOR IMAGES" := by
  have h : (DrawFrame (FrameDrawer.FrameDrawer 2 2 0 0 : FrameDrawer Int) ⟨0, 0⟩).isSome
      = true := by decide
  obtain ⟨r, hr⟩ := Option.isSome_iff_exists.1 h
  have h0 : (DrawFrame (FrameDrawer.FrameDrawer 2 2 0 0 : FrameDrawer Int) ⟨0, 0⟩).map
      (fun r => (r.locals.state, r.text)) =
      some (SYSTEM_NOT_READY, " LOADING ORB VOCABULARY. PLEASE WAIT...") := by decide
  rw [hr] at h0
  simp only [Option.map_some', Option.some.injEq, Prod.mk.injEq] at h0
  obtain ⟨h1, h2⟩ := h0
  exact ⟨r, hr, h1, by rw [h1]; decide, h2, by rw [h2]; decide⟩

/-- C2: after one `DrawFrame` the stored state is `NO_IMAGES_YET` if it was
`SYSTEM_NOT_READY` and unchanged otherwise, a second `DrawFrame` leaves the drawer
as the first left it, and from `SYSTEM_NOT_READY` every `DrawFrame` after the first
(no `Update` in between) returns, captures `NO_IMAGES_YET` and leaves
`NO_IMAGES_YET` stored. -/
theorem C2_promotion_one_shot {F : Type} (d : FrameDrawer F) :
    (DrawFrame.copyVariables d).1.mState =
        (if d.mState = SYSTEM_NOT_READY then NO_IMAGES_YET else d.mState) ∧
    (∀ mpMap r, DrawFrame d mpMap = some r →
      r.self.mState = (if d.mState = SYSTEM_NOT_READY then NO_IMAGES_YET else d.mState) ∧
      ∀ mpMap2 r2, DrawFrame r.self mpMap2 = some r2 → r2.self = r.self) ∧
    (d.mState = SYSTEM_NOT_READY → ∀ mpMap maps, ∃ r rs,
      DrawFrames d (mpMap :: maps) = some (r :: rs) ∧ rs.length = maps.length ∧
      ∀ r2 ∈ rs, r2.locals.state = NO_IMAGES_YET ∧ r2.self.mState = NO_IMAGES_YET ∧
        r2.self = r.self) := by
  refine ⟨?_, ?_, ?_⟩
  · obtain ⟨mIm, N, keys, vb, tr, ik, im, st⟩ := d
    cases st <;> simp [DrawFrame.copyVariables]
  · intro mpMap r hr
    exact ⟨DrawFrame_self_mState d mpMap r hr,
      fun mpMap2 r2 hr2 => DrawFrame_self_idem d mpMap mpMap2 r r2 hr hr2⟩
  · intro h mpMap maps
    obtain ⟨r, hr, hst⟩ : ∃ r, DrawFrame d mpMap = some r ∧ r.self.mState = NO_IMAGES_YET :=
      ⟨_, DrawFrame_idle d mpMap (by simp [h]) (by simp [h]), by simp [DrawFrame.finish, h]⟩
    obtain ⟨rs, h1, h2, h3⟩ := DrawFrames_no_images r.self hst maps
    refine ⟨r, rs, by simp only [DrawFrames, hr, h1, Option.map_some'], h2, ?_⟩
    intro r2 hr2
    obtain ⟨ha, hb⟩ := h3 r2 hr2
    exact ⟨ha, by rw [hb]; exact hst, hb⟩

/-- C2 (witness): three consecutive draws on a freshly constructed drawer. -/
theorem C2_promotion_one_shot_witness :
    ∃ r rs, DrawFrames (FrameDrawer.FrameDrawer 2 2 0 0 : FrameDrawer Int)
        [⟨0, 0⟩, ⟨1, 2⟩, ⟨3, 4⟩] = some (r :: rs) ∧
      rs.length = [(⟨1, 2⟩ : Map), ⟨3, 4⟩].length ∧
      ∀ r2 ∈ rs, r2.locals.state = NO_IMAGES_YET ∧ r2.self.mState = NO_IMAGES_YET ∧
        r2.self = r.self :=
  (C2_promotion_one_shot (FrameDrawer.FrameDrawer 2 2 0 0 : FrameDrawer Int)).2.2 rfl ⟨0, 0⟩
    [⟨1, 2⟩, ⟨3, 4⟩]

/-- C6 (as amended): the status string of a fixed-text state is the literal of
the code: " WAITING FOR IMAGES", " TRYING TO INITIALIZE ",
" TRACK LOST. TRYING TO RELOCALIZE " and " LOADING ORB VOCABULARY. PLEASE WAIT...",
with their leading and trailing blanks. -/
theorem C6_fixed_status_texts (mpMap : Map) (mnTracked : Int) :
    DrawTextInfo mpMap mnTracked NO_IMAGES_YET = " WAITING FOR IMAGES" ∧
    DrawTextInfo mpMap mnTracked NOT_INITIALIZED = " TRYING TO INITIALIZE " ∧
    DrawTextInfo mpMap mnTracked LOST = " TRACK LOST. TRYING TO RELOCALIZE " ∧
    DrawTextInfo mpMap mnTracked SYSTEM_NOT_READY = " LOADING ORB VOCABULARY. PLEASE WAIT..." := by
  refine ⟨?_, ?_, ?_, ?_⟩ <;> simp [DrawTextInfo]

/-- C6 (counterexample): the strings of the table are not the ones composed. -/
theorem C6_counterexample :
    ¬ (DrawTextInfo ⟨0, 0⟩ 0 NO_IMAGES_YET = "WAITING FOR IMAGES" ∧
       DrawTextInfo ⟨0, 0⟩ 0 NOT_INITIALIZED = "TRYING TO INITIALIZE" ∧
       DrawTextInfo ⟨0, 0⟩ 0 LOST = "TRACK LOST. TRYING TO RELOCALIZE" ∧
       DrawTextInfo ⟨0, 0⟩ 0 SYSTEM_NOT_READY = "LOADING VOCABULARY. PLEASE WAIT...") := by
  decide

/-- C4: in state `OK` with a membership vector as long as the current key points,
`DrawFrame` returns; its markers are the points of the key points whose
membership is true, in index order; it draws no line; the number of markers and
`mnTracked` after the call are the number of true entries of the membership,
whatever `mnTracked` was before. -/
theorem C4_markers_and_tracked_count {F : Type} (d : FrameDrawer F) (mpMap : Map)
    (hs : d.mState = OK) (hlen : d.mvbMap.length = d.mvCurrentKeys.length) :
    ∃ r, DrawFrame d mpMap = some r ∧
      markers r.calls = ((d.mvCurrentKeys.zip d.mvbMap).filter fun p => p.2).map (fun p => p.1.pt) ∧
      (markers r.calls).length = d.mvbMap.count true ∧
      lines r.calls = [] ∧
      r.self.mnTracked = ((d.mvbMap.count true : Nat) : Int) := by
  have htake : d.mvbMap.take d.mvCurrentKeys.length = d.mvbMap := by
    rw [← hlen, List.take_length]
  refine ⟨_, DrawFrame_OK_eq d mpMap hs (by omega), ?_⟩
  have hm : markers (DrawFrame.finish
        { d with mnTracked := (((d.mvbMap.take d.mvCurrentKeys.length).count true : Nat) : Int) }
        mpMap
        { im := d.mIm, vIniKeys := [], vMatches := [], vCurrentKeys := d.mvCurrentKeys,
          vbMap := d.mvbMap, state := OK }
        ((if d.mIm.channels < 3 then [CvCall.cvtColor] else []) ++
          (((d.mvCurrentKeys.zip (d.mvbMap.take d.mvCurrentKeys.length)).filter
            fun p => p.2).map fun p => CvCall.circle p.1.pt))).calls =
      ((d.mvCurrentKeys.zip d.mvbMap).filter fun p => p.2).map (fun p => p.1.pt) := by
    simp only [DrawFrame.finish, markers_putText, markers_append, markers_cvt,
      List.nil_append, List.append_nil, htake]
    exact markers_circles _ (fun p : KeyPoint F × Bool => p.1.pt)
  refine ⟨hm, ?_, ?_, ?_⟩
  · rw [hm, List.length_map, zip_filter_length _ _ (by omega)]
  · simp only [DrawFrame.finish, lines_putText, lines_append, lines_cvt,
      List.nil_append, List.append_nil]
    exact lines_circles _ (fun p : KeyPoint F × Bool => p.1.pt)
  · simp only [DrawFrame.finish, htake]

/-- C4 (witness): key points (10,10), (20,20), (30,30) with membership
true, false, true give two markers, at (10,10) and (30,30), and a count of 2. -/
theorem C4_markers_and_tracked_count_witness :
    sampleOK.mState = OK ∧ sampleOK.mvbMap.length = sampleOK.mvCurrentKeys.length ∧
    ∃ r, DrawFrame sampleOK ⟨5, 7⟩ = some r ∧
      markers r.calls = [⟨10, 10⟩, ⟨30, 30⟩] ∧ lines r.calls = [] ∧ r.self.mnTracked = 2 := by
  obtain ⟨r, h1, h2, -, h4, h5⟩ := C4_markers_and_tracked_count sampleOK ⟨5, 7⟩ rfl rfl
  exact ⟨rfl, rfl, r, h1, h2, h4, h5⟩

/-- C5: in state `NOT_INITIALIZED`, with at least as many reference key points as
matches and every non-negative match an index into the current key points,
`DrawFrame` returns; its line segments are, in index order, one per non-negative
match `initMatches[i]`, from `initKeypoints[i]` to
`currentKeypoints[initMatches[i]]`; their number is the number of non-negative
matches; no marker is drawn. -/
theorem C5_lines_of_matches {F : Type} (d : FrameDrawer F) (mpMap : Map)
    (hs : d.mState = NOT_INITIALIZED) (hlen : d.mvIniMatches.length ≤ d.mvIniKeys.length)
    (hvalid : ∀ (i : Nat) (m : Int), d.mvIniMatches[i]? = some m → 0 ≤ m →
      m.toNat < d.mvCurrentKeys.length) :
    ∃ r, DrawFrame d mpMap = some r ∧
      lines r.calls = (d.mvIniMatches.zip d.mvIniKeys).filterMap
        (fun p => if 0 ≤ p.1 then d.mvCurrentKeys[p.1.toNat]?.map fun b => (p.2.pt, b.pt)
                  else none) ∧
      (lines r.calls).length = (d.mvIniMatches.filter fun m => decide (0 ≤ m)).length ∧
      markers r.calls = [] := by
  refine ⟨_, DrawFrame_NOT_INITIALIZED_eq d mpMap hs hlen hvalid, ?_⟩
  have hl : lines (DrawFrame.finish d mpMap
        { im := d.mIm, vIniKeys := d.mvIniKeys, vMatches := d.mvIniMatches,
          vCurrentKeys := d.mvCurrentKeys, vbMap := [], state := NOT_INITIALIZED }
        ((if d.mIm.channels < 3 then [CvCall.cvtColor] else []) ++
          (((d.mvIniMatches.zip (d.mvIniKeys.take d.mvIniMatches.length)).filterMap
            (segment d.mvCurrentKeys)).map fun q => CvCall.line q.1 q.2))).calls =
      (d.mvIniMatches.zip d.mvIniKeys).filterMap (segment d.mvCurrentKeys) := by
    simp only [DrawFrame.finish, lines_putText, lines_append, lines_cvt,
      List.nil_append, List.append_nil, zip_take_left]
    exact lines_lines _
  have hmem : ∀ m ∈ d.mvIniMatches, 0 ≤ m → m.toNat < d.mvCurrentKeys.length := by
    intro m hm h0
    obtain ⟨i, hi, rfl⟩ := List.getElem_of_mem hm
    exact hvalid i _ (List.getElem?_eq_getElem hi) h0
  refine ⟨hl, ?_, ?_⟩
  · rw [hl]
    exact segments_length d.mvCurrentKeys d.mvIniMatches d.mvIniKeys hlen hmem
  · simp only [DrawFrame.finish, markers_putText, markers_append, markers_cvt,
      List.nil_append, List.append_nil]
    exact markers_lines _

/-- C5 (witness): reference key points (0,0), (5,5), matches 1, -1 and current
key points (1,1), (6,6) give exactly one line, from (0,0) to (6,6). -/
theorem C5_lines_of_matches_witness :
    sampleInit.mState = NOT_INITIALIZED ∧
    sampleInit.mvIniMatches.length ≤ sampleInit.mvIniKeys.length ∧
    ∃ r, DrawFrame sampleInit ⟨0, 0⟩ = some r ∧
      lines r.calls = [(⟨0, 0⟩, ⟨6, 6⟩)] ∧ markers r.calls = [] := by
  have hvalid : ∀ (i : Nat) (m : Int), sampleInit.mvIniMatches[i]? = some m → 0 ≤ m →
      m.toNat < sampleInit.mvCurrentKeys.length := by
    intro i m hm h0
    match i, hm with
    | 0, hm => cases hm; decide
    | 1, hm => cases hm; cases h0
    | i + 2, hm => cases hm
  obtain ⟨r, h1, h2, -, h4⟩ := C5_lines_of_matches sampleInit ⟨0, 0⟩ rfl (by decide) hvalid
  exact ⟨rfl, by decide, r, h1, h2, h4⟩

/-- C7: in state `OK` with a membership vector as long as the current key points,
`DrawFrame` returns and the text it composes and writes is
"KFs: k, MPs: m, Matches: c", with `k` and `m` the counts of the map at the time
of the call and `c` the number of true entries of the membership drawn in this
call, whatever `mnTracked` was before. -/
theorem C7_status_text_of_this_draw {F : Type} (d : FrameDrawer F) (mpMap : Map)
    (hs : d.mState = OK) (hlen : d.mvbMap.length = d.mvCurrentKeys.length) :
    ∃ r, DrawFrame d mpMap = some r ∧
      r.text = "KFs: " ++ toString mpMap.KeyFramesInMap ++ ", MPs: " ++
        toString mpMap.MapPointsInMap ++ ", Matches: " ++ toString (d.mvbMap.count true) ∧
      r.calls.getLast? = some (CvCall.putText r.text) := by
  have htake : d.mvbMap.take d.mvCurrentKeys.length = d.mvbMap := by
    rw [← hlen, List.take_length]
  refine ⟨_, DrawFrame_OK_eq d mpMap hs (by omega), ?_, ?_⟩
  · simp only [DrawFrame.finish, DrawTextInfo, htake]
    simp
    rfl
  · simp [DrawFrame.finish]

/-- C7 (witness): membership true, false, true gives the text
"KFs: 5, MPs: 7, Matches: 2". -/
theorem C7_status_text_of_this_draw_witness :
    sampleOK.mState = OK ∧ sampleOK.mvbMap.length = sampleOK.mvCurrentKeys.length ∧
    sampleOK.mnTracked = 77 ∧
    ∃ r, DrawFrame sampleOK ⟨5, 7⟩ = some r ∧ r.text = "KFs: 5, MPs: 7, Matches: 2" := by
  obtain ⟨r, h1, h2, -⟩ := C7_status_text_of_this_draw sampleOK ⟨5, 7⟩ rfl rfl
  exact ⟨rfl, rfl, rfl, r, h1, by rw [h2]; decide⟩

/-- C10 (counterexample): every non-negative match is an index into the current
key points, yet the loop reads `vIniKeys[0]` of an empty vector. -/
theorem C10_counterexample :
    sampleShortIni.mState = NOT_INITIALIZED ∧
    (∀ (i : Nat) (m : Int), sampleShortIni.mvIniMatches[i]? = some m → 0 ≤ m →
      m.toNat < sampleShortIni.mvCurrentKeys.length) ∧
    DrawFrame sampleShortIni ⟨0, 0⟩ = none := by
  refine ⟨rfl, ?_, by decide⟩
  intro i m hm _
  match i, hm with
  | 0, hm => cases hm; decide
  | i + 1, hm => cases hm

/-- C10 (as amended): in state `NOT_INITIALIZED`, every key point read of the line
loop is in range exactly when, for each index `i` with `initMatches[i] >= 0`,
`initKeypoints` has an entry at `i` and `initMatches[i]` is an index into
`currentKeypoints`; no other relation between the lengths is needed. -/
theorem C10_line_reads_in_range {F : Type} (d : FrameDrawer F) (mpMap : Map)
    (hs : d.mState = NOT_INITIALIZED) :
    (DrawFrame d mpMap).isSome ↔
      ((∀ (i : Nat) (m : Int), d.mvIniMatches[i]? = some m → 0 ≤ m →
          m.toNat < d.mvCurrentKeys.length) ∧
       (∀ (i : Nat) (m : Int), d.mvIniMatches[i]? = some m → 0 ≤ m →
          i < d.mvIniKeys.length)) := by
  rw [DrawFrame_NOT_INITIALIZED_isSome d mpMap hs]
  constructor
  · intro h
    exact ⟨fun i m hm h0 => (h i m hm h0).2, fun i m hm h0 => (h i m hm h0).1⟩
  · rintro ⟨h1, h2⟩ i m hm h0
    exact ⟨h2 i m hm h0, h1 i m hm h0⟩

/-- C10 (witness): one reference key point and the matches 0, -1, -1. -/
theorem C10_line_reads_in_range_witness :
    sampleTrailing.mState = NOT_INITIALIZED ∧
    sampleTrailing.mvIniKeys.length < sampleTrailing.mvIniMatches.length ∧
    (DrawFrame sampleTrailing ⟨0, 0⟩).isSome := by
  refine ⟨rfl, by decide, (C10_line_reads_in_range sampleTrailing ⟨0, 0⟩ rfl).2 ⟨?_, ?_⟩⟩
  · intro i m hm h0
    match i, hm with
    | 0, hm => cases hm; decide
    | 1, hm => cases hm; cases h0
    | 2, hm => cases hm; cases h0
    | i + 3, hm => cases hm
  · intro i m hm h0
    match i, hm with
    | 0, hm => decide
    | 1, hm => cases hm; cases h0
    | 2, hm => cases hm; cases h0
    | i + 3, hm => cases hm

/-- C9 (counterexample): a draw in state `OK` replaces the stored count 77 by 2. -/
theorem C9_counterexample :
    ∃ r, DrawFrame sampleOK ⟨5, 7⟩ = some r ∧ sampleOK.mnTracked = 77 ∧
      r.self.mnTracked = 2 ∧ r.self.mnTracked ≠ sampleOK.mnTracked := by
  have h : (DrawFrame sampleOK ⟨5, 7⟩).isSome = true := by decide
  obtain ⟨r, hr⟩ := Option.isSome_iff_exists.1 h
  have h2 : (DrawFrame sampleOK ⟨5, 7⟩).map (fun r => r.self.mnTracked) = some 2 := by decide
  rw [hr] at h2
  simp only [Option.map_some', Option.some.injEq] at h2
  exact ⟨r, hr, rfl, h2, by rw [h2]; decide⟩

/-- C9 (as amended): `DrawFrame` returns exactly when its loop reads in range, and
then the stored image, current key points, reference key points, matches and
membership are as before the call; `mnTracked` is as before the call when the
state is not `OK`, and is the number of markers drawn when the state is `OK`. -/
theorem C9_draw_frame_effect {F : Type} (d : FrameDrawer F) (mpMap : Map) :
    ((DrawFrame d mpMap).isSome ↔
      ((d.mState = OK → d.mvCurrentKeys.length ≤ d.mvbMap.length) ∧
       (d.mState = NOT_INITIALIZED →
          ∀ (i : Nat) (m : Int), d.mvIniMatches[i]? = some m → 0 ≤ m →
            i < d.mvIniKeys.length ∧ m.toNat < d.mvCurrentKeys.length))) ∧
    ∀ r, DrawFrame d mpMap = some r →
      r.self.mIm = d.mIm ∧ r.self.mvCurrentKeys = d.mvCurrentKeys ∧
      r.self.mvIniKeys = d.mvIniKeys ∧ r.self.mvIniMatches = d.mvIniMatches ∧
      r.self.mvbMap = d.mvbMap ∧
      (d.mState ≠ OK → r.self.mnTracked = d.mnTracked) ∧
      (d.mState = OK → r.self.mnTracked = (((markers r.calls).length : Nat) : Int)) := by
  constructor
  · by_cases h1 : d.mState = OK
    · rw [DrawFrame_OK_isSome d mpMap h1]
      simp [h1]
    · by_cases h2 : d.mState = NOT_INITIALIZED
      · rw [DrawFrame_NOT_INITIALIZED_isSome d mpMap h2]
        simp [h2]
      · rw [DrawFrame_idle d mpMap h2 h1]
        simp [h1, h2]
  · intro r hr
    obtain ⟨a1, -, a3, a4, a5, a6, a7⟩ := DrawFrame_frame d mpMap r hr
    exact ⟨a1, a3, a4, a5, a6, a7, fun hs => DrawFrame_OK_tracked d mpMap r hs hr⟩

/-- C9 (witness): a draw in state `NOT_INITIALIZED` returns and changes no member. -/
theorem C9_draw_frame_effect_witness :
    ∃ r, DrawFrame sampleInit ⟨0, 0⟩ = some r ∧
      r.self.mIm = sampleInit.mIm ∧ r.self.mvCurrentKeys = sampleInit.mvCurrentKeys ∧
      r.self.mvIniKeys = sampleInit.mvIniKeys ∧
      r.self.mvIniMatches = sampleInit.mvIniMatches ∧
      r.self.mvbMap = sampleInit.mvbMap ∧ r.self.mnTracked = sampleInit.mnTracked := by
  have h : (DrawFrame sampleInit ⟨0, 0⟩).isSome = true := by decide
  obtain ⟨r, hr⟩ := Option.isSome_iff_exists.1 h
  obtain ⟨a1, a2, a3, a4, a5, a6, -⟩ := (C9_draw_frame_effect sampleInit ⟨0, 0⟩).2 r hr
  exact ⟨r, hr, a1, a2, a3, a4, a5, a6 (by decide)⟩

/-- C8 (counterexample): the reference key points written by an `Update` in state
`NOT_INITIALIZED` survive a following `Update` in state `OK`, which on a fresh
drawer leaves none. -/
theorem C8_counterexample :
    ((Update (FrameDrawer.FrameDrawer 2 2 0 0) trackInit).bind fun d => Update d trackOK).map
        (fun u => (u.mvIniKeys, u.mvIniMatches)) = some ([⟨⟨9, 9⟩⟩], [0]) ∧
    (Update (FrameDrawer.FrameDrawer 2 2 0 0) trackOK).map
        (fun u => (u.mvIniKeys, u.mvIniMatches)) = some ([], []) ∧
    ((Update (FrameDrawer.FrameDrawer 2 2 0 0) trackInit).bind fun d => Update d trackOK).map
        (fun u => (u.mvIniKeys, u.mvIniMatches)) ≠
      (Update (FrameDrawer.FrameDrawer 2 2 0 0) trackOK).map
        (fun u => (u.mvIniKeys, u.mvIniMatches)) := by
  decide

/-- C8 (as amended): `Update` overwrites the stored state, image, current key
points and membership whatever the tracking state, so after the same `Update`
they are equal from any two prior drawers; the reference key points and matches
are overwritten when the tracking state is `NOT_INITIALIZED`, and are left as
they were for any other tracking state. -/
theorem C8_update_overwrites {F : Type} (d1 d2 : FrameDrawer F) (t : Tracking F) :
    (Update d1 t).map (fun u => (u.mState, u.mIm, u.mvCurrentKeys, u.mvbMap)) =
      (Update d2 t).map (fun u => (u.mState, u.mIm, u.mvCurrentKeys, u.mvbMap)) ∧
    (t.mLastProcessedState = NOT_INITIALIZED →
      ∃ u1 u2, Update d1 t = some u1 ∧ Update d2 t = some u2 ∧
        u1.mvIniKeys = u2.mvIniKeys ∧ u1.mvIniMatches = u2.mvIniMatches) ∧
    (t.mLastProcessedState ≠ NOT_INITIALIZED → ∀ u, Update d1 t = some u →
      u.mvIniKeys = d1.mvIniKeys ∧ u.mvIniMatches = d1.mvIniMatches) ∧
    (t.mLastProcessedState ≠ OK → (Update d1 t).isSome) ∧
    (t.mLastProcessedState = OK →
      t.mCurrentFrame.mvKeys.length ≤ t.mCurrentFrame.mvpMapPoints.length →
      t.mCurrentFrame.mvKeys.length ≤ t.mCurrentFrame.mvbOutlier.length →
      (Update d1 t).isSome) := by
  refine ⟨?_, ?_, ?_, ?_, ?_⟩
  · by_cases h1 : t.mLastProcessedState = NOT_INITIALIZED
    · rw [Update_NOT_INITIALIZED_eq d1 t h1, Update_NOT_INITIALIZED_eq d2 t h1]; rfl
    · by_cases h2 : t.mLastProcessedState = OK
      · rw [Update_OK_unfold d1 t h2, Update_OK_unfold d2 t h2]
        simp only [Option.map_map]
        rfl
      · rw [Update_other_eq d1 t h1 h2, Update_other_eq d2 t h1 h2]; rfl
  · intro h1
    exact ⟨_, _, Update_NOT_INITIALIZED_eq d1 t h1, Update_NOT_INITIALIZED_eq d2 t h1, rfl, rfl⟩
  · intro h1 u hu
    by_cases h2 : t.mLastProcessedState = OK
    · rw [Update_OK_unfold d1 t h2] at hu
      obtain ⟨vb, -, rfl⟩ := Option.map_eq_some'.1 hu
      exact ⟨rfl, rfl⟩
    · rw [Update_other_eq d1 t h1 h2] at hu
      cases hu
      exact ⟨rfl, rfl⟩
  · intro h2
    by_cases h1 : t.mLastProcessedState = NOT_INITIALIZED
    · rw [Update_NOT_INITIALIZED_eq d1 t h1]; rfl
    · rw [Update_other_eq d1 t h1 h2]; rfl
  · intro h2 hmp hol
    rw [Update_OK_eq d1 t h2 hmp hol]; rfl

/-- C8 (witness): an `Update` in state `OK` after one in state `NOT_INITIALIZED`
returns and keeps the reference key points and matches of the first. -/
theorem C8_update_overwrites_witness :
    ∃ d u, Update (FrameDrawer.FrameDrawer 2 2 0 0) trackInit = some d ∧
      Update d trackOK = some u ∧
      u.mvIniKeys = d.mvIniKeys ∧ u.mvIniMatches = d.mvIniMatches ∧
      d.mvIniKeys = [⟨⟨9, 9⟩⟩] := by
  have h : (Update (FrameDrawer.FrameDrawer 2 2 0 0) trackInit).isSome = true := by decide
  obtain ⟨d, hd⟩ := Option.isSome_iff_exists.1 h
  have hk : (Update (FrameDrawer.FrameDrawer 2 2 0 0) trackInit).map (fun d => d.mvIniKeys)
      = some [⟨⟨9, 9⟩⟩] := by decide
  rw [hd] at hk
  simp only [Option.map_some', Option.some.injEq] at hk
  have h2 := (C8_update_overwrites d d trackOK).2.2.2.2 rfl (by decide) (by decide)
  obtain ⟨u, hu⟩ := Option.isSome_iff_exists.1 h2
  obtain ⟨a1, a2⟩ := (C8_update_overwrites d d trackOK).2.2.1 (by decide) u hu
  exact ⟨d, u, hd, hu, a1, a2, hk⟩

/-- C3: an `Update` whose tracking state `s` is not `SYSTEM_NOT_READY` (with, in
state `OK`, a map point entry and an outlier flag for every current key point)
returns, and the locked block of the `DrawFrame` that follows captures `s`, the
image, the current key points when `s` is `NOT_INITIALIZED`, `OK` or `LOST`, the
reference key points and matches when `s` is `NOT_INITIALIZED`, and when `s` is
`OK` a membership of the length of the current key points whose entry `i` is true
exactly when `mvpMapPoints[i]` is not null and `mvbOutlier[i]` is false. -/
theorem C3_update_then_draw {F : Type} (d : FrameDrawer F) (t : Tracking F)
    (hs : t.mLastProcessedState ≠ SYSTEM_NOT_READY)
    (hb : t.mLastProcessedState = OK →
      t.mCurrentFrame.mvKeys.length ≤ t.mCurrentFrame.mvpMapPoints.length ∧
      t.mCurrentFrame.mvKeys.length ≤ t.mCurrentFrame.mvbOutlier.length) :
    ∃ u, Update d t = some u ∧
      (DrawFrame.copyVariables u).2.state = t.mLastProcessedState ∧
      (DrawFrame.copyVariables u).2.im = t.mImGray ∧
      (t.mLastProcessedState = NOT_INITIALIZED ∨ t.mLastProcessedState = OK ∨
          t.mLastProcessedState = LOST →
        (DrawFrame.copyVariables u).2.vCurrentKeys = t.mCurrentFrame.mvKeys) ∧
      (t.mLastProcessedState = NOT_INITIALIZED →
        (DrawFrame.copyVariables u).2.vIniKeys = t.mInitialFrame.mvKeys ∧
        (DrawFrame.copyVariables u).2.vMatches = t.mvIniMatches) ∧
      (t.mLastProcessedState = OK →
        (DrawFrame.copyVariables u).2.vbMap.length = t.mCurrentFrame.mvKeys.length ∧
        ∀ i, i < t.mCurrentFrame.mvKeys.length →
          ((DrawFrame.copyVariables u).2.vbMap[i]? = some true ↔
            (∃ a, t.mCurrentFrame.mvpMapPoints[i]? = some (some a)) ∧
              t.mCurrentFrame.mvbOutlier[i]? = some false)) ∧
      (t.mLastProcessedState ≠ NOT_INITIALIZED → ∀ mpMap, (DrawFrame u mpMap).isSome) ∧
      (∀ mpMap r, DrawFrame u mpMap = some r → r.locals = (DrawFrame.copyVariables u).2) := by
  by_cases h1 : t.mLastProcessedState = NOT_INITIALIZED
  · refine ⟨_, Update_NOT_INITIALIZED_eq d t h1, ?_, ?_, ?_, ?_, ?_, ?_, ?_⟩
    · simp [DrawFrame.copyVariables, h1]
    · simp [DrawFrame.copyVariables]
    · intro _; simp [DrawFrame.copyVariables]
    · intro _; simp [DrawFrame.copyVariables]
    · intro h; rw [h1] at h; cases h
    · intro h; exact absurd h1 h
    · intro mpMap r hr; exact DrawFrame_locals _ mpMap r hr
  · by_cases h2 : t.mLastProcessedState = OK
    · obtain ⟨hmp, hol⟩ := hb h2
      have hlen : ((List.zipWith (fun (p : Option Nat) o => p.isSome && !o)
          t.mCurrentFrame.mvpMapPoints t.mCurrentFrame.mvbOutlier).take
            t.mCurrentFrame.mvKeys.length).length = t.mCurrentFrame.mvKeys.length := by
        rw [List.length_take, List.length_zipWith]; omega
      refine ⟨_, Update_OK_eq d t h2 hmp hol, ?_, ?_, ?_, ?_, ?_, ?_, ?_⟩
      · simp [DrawFrame.copyVariables, h2]
      · simp [DrawFrame.copyVariables]
      · intro _; simp [DrawFrame.copyVariables]
      · intro h; exact absurd h h1
      · intro _
        refine ⟨by simpa [DrawFrame.copyVariables] using hlen, ?_⟩
        intro i hi
        simpa [DrawFrame.copyVariables] using membership_entry _ _ _ i hi hmp hol
      · intro _ mpMap
        rw [DrawFrame_OK_isSome _ mpMap rfl]
        simp only [hlen]
        exact Nat.le_refl _
      · intro mpMap r hr; exact DrawFrame_locals _ mpMap r hr
    · refine ⟨_, Update_other_eq d t h1 h2, ?_, ?_, ?_, ?_, ?_, ?_, ?_⟩
      · cases h : t.mLastProcessedState <;> simp_all [DrawFrame.copyVariables]
      · cases h : t.mLastProcessedState <;> simp_all [DrawFrame.copyVariables]
      · intro _
        cases h : t.mLastProcessedState <;> simp_all [DrawFrame.copyVariables]
      · intro h; exact absurd h h1
      · intro h; exact absurd h h2
      · intro _ mpMap
        rw [DrawFrame_idle _ mpMap h1 h2]; rfl
      · intro mpMap r hr; exact DrawFrame_locals _ mpMap r hr

/-- C3 (witness): an `Update` in state `OK` with map points non-null, non-null,
null and outlier flags false, true, false is captured with the membership
true, false, false. -/
theorem C3_update_then_draw_witness :
    ∃ u, Update sampleInit trackOK = some u ∧
      (DrawFrame.copyVariables u).2.state = OK ∧
      (DrawFrame.copyVariables u).2.vCurrentKeys = [⟨⟨3, 3⟩⟩, ⟨⟨4, 4⟩⟩, ⟨⟨5, 5⟩⟩] ∧
      (DrawFrame.copyVariables u).2.vbMap.length = 3 ∧
      ((DrawFrame.copyVariables u).2.vbMap[0]? = some true ↔
        (∃ a, trackOK.mCurrentFrame.mvpMapPoints[0]? = some (some a)) ∧
          trackOK.mCurrentFrame.mvbOutlier[0]? = some false) := by
  obtain ⟨u, h1, h2, -, h4, -, h6, -⟩ :=
    C3_update_then_draw sampleInit trackOK (by decide) (fun _ => ⟨by decide, by decide⟩)
  obtain ⟨h7, h8⟩ := h6 rfl
  exact ⟨u, h1, h2, h4 (Or.inr (Or.inl rfl)), h7, h8 0 (by decide)⟩

end SD_SLAM
